import Mathlib

/-!
Verification of the container-store reconciler (src/main.rs).

The program builds a filtered overlay view of /nix/store.  Its core is an
inline three-way set reconciliation in `main` (main.rs lines 60-88) over
three `HashSet<String>` values:
  * `current_store`   — entries of /nix/store           (called `store` here)
  * `needed_paths`    — the whitelist closure           (called `whitelist`)
  * `current_removed` — entries of the upper/mask dir   (called `masked`)
We embed store-path identifiers as `String` and the hash sets as `Finset`.
-/

abbrev StorePathId := String

namespace ContainerStore

/-- Embeds main.rs line 62: `current_removed.intersection(&needed_paths)`,
the set of markers removed to make paths available again. -/
def unmask (_store whitelist masked : Finset StorePathId) : Finset StorePathId :=
  masked ∩ whitelist

/-- Embeds main.rs line 69: `current_removed.difference(&current_store)`,
the set of outdated markers removed from the upper dir. -/
def stale (store _whitelist masked : Finset StorePathId) : Finset StorePathId :=
  masked \ store

/-- Embeds main.rs lines 76-80:
`current_available = current_store.difference(&current_removed)` followed by
`current_available.difference(&needed_paths_ref)`, the set of paths that get
a fresh masking marker via `mknod`. -/
def newly_mask (store whitelist masked : Finset StorePathId) : Finset StorePathId :=
  (store \ masked) \ whitelist

/-- The mask-directory contents after one run: the initial markers minus all
removals (main.rs lines 62-73) plus all creations (lines 76-88). -/
def masked' (store whitelist masked : Finset StorePathId) : Finset StorePathId :=
  (masked \ (unmask store whitelist masked ∪ stale store whitelist masked)) ∪
    newly_mask store whitelist masked

/-- Spec-side definition (§4.2 equation 1): `unmask = masked ∩ whitelist`. -/
def spec_unmask (masked whitelist : Finset StorePathId) : Finset StorePathId :=
  masked ∩ whitelist

/-- Spec-side definition (§4.2 equation 2): `stale = masked \ store`. -/
def spec_stale (masked store : Finset StorePathId) : Finset StorePathId :=
  masked \ store

/-- Spec-side definition (§4.2 equation 3):
`newly_mask = (store \ masked) \ whitelist`. -/
def spec_newly_mask (store masked whitelist : Finset StorePathId) : Finset StorePathId :=
  (store \ masked) \ whitelist

end ContainerStore

namespace ContainerStore

/-- C1: Convergence of reconciliation: for all finite sets `store`,
`whitelist`, `masked`, the recomputed mask directory
`masked' = (masked \ (unmask ∪ stale)) ∪ newly_mask` equals
`store \ whitelist`. -/
theorem reconcile_converges (store whitelist masked : Finset StorePathId) :
    masked' store whitelist masked = store \ whitelist := by
  ext x
  simp only [masked', unmask, stale, newly_mask, Finset.mem_union, Finset.mem_sdiff,
    Finset.mem_inter]
  tauto

/-- C2: The reconciler in `main` computes exactly the three defining
equations of spec §4.2: `unmask = masked ∩ whitelist`,
`stale = masked \ store`, `newly_mask = (store \ masked) \ whitelist`,
as a pure function of the three input sets. -/
theorem reconcile_matches_spec (store whitelist masked : Finset StorePathId) :
    unmask store whitelist masked = spec_unmask masked whitelist ∧
    stale store whitelist masked = spec_stale masked store ∧
    newly_mask store whitelist masked = spec_newly_mask store masked whitelist := by
  exact ⟨rfl, rfl, rfl⟩

/-- C3: Idempotence: running the reconciler a second time with `masked`
replaced by the first run's result `masked'` and the same `store` and
`whitelist` yields `unmask = ∅`, `stale = ∅` and `newly_mask = ∅`. -/
theorem reconcile_idempotent (store whitelist masked : Finset StorePathId) :
    unmask store whitelist (masked' store whitelist masked) = ∅ ∧
    stale store whitelist (masked' store whitelist masked) = ∅ ∧
    newly_mask store whitelist (masked' store whitelist masked) = ∅ := by
  refine ⟨?_, ?_, ?_⟩ <;>
  · ext x
    simp only [masked', unmask, stale, newly_mask, Finset.mem_union, Finset.mem_sdiff,
      Finset.mem_inter, Finset.not_mem_empty, iff_false]
    tauto

/-- C4 counterexample: with `store = ∅`, `whitelist = {"a"}`,
`masked = {"a"}` the sets `unmask` and `stale` both contain `"a"`, so the
three output sets are not pairwise disjoint. -/
theorem outputs_not_pairwise_disjoint_cex :
    ¬ Disjoint (unmask (∅ : Finset StorePathId) {"a"} {"a"})
        (stale (∅ : Finset StorePathId) {"a"} {"a"}) := by
  rw [Finset.not_disjoint_iff]
  refine ⟨"a", ?_, ?_⟩ <;> simp [unmask, stale]

/-- C4 amended: `newly_mask` is disjoint from both `unmask` and `stale` for
every input, and `unmask` and `stale` overlap exactly on
`(masked ∩ whitelist) \ store` (so they are disjoint iff
`masked ∩ whitelist ⊆ store`). -/
theorem outputs_partial_disjoint (store whitelist masked : Finset StorePathId) :
    Disjoint (unmask store whitelist masked) (newly_mask store whitelist masked) ∧
    Disjoint (stale store whitelist masked) (newly_mask store whitelist masked) ∧
    unmask store whitelist masked ∩ stale store whitelist masked =
      (masked ∩ whitelist) \ store := by
  refine ⟨?_, ?_, ?_⟩
  · rw [Finset.disjoint_left]
    intro x hx hy
    simp only [unmask, newly_mask, Finset.mem_inter, Finset.mem_sdiff] at hx hy
    tauto
  · rw [Finset.disjoint_left]
    intro x hx hy
    simp only [stale, newly_mask, Finset.mem_sdiff] at hx hy
    tauto
  · ext x
    simp only [unmask, stale, Finset.mem_inter, Finset.mem_sdiff]
    tauto

/-- C5 counterexample: with `store = ∅`, `whitelist = {"a"}`,
`masked = {"a"}` we have `whitelist ⊇ store`, yet
`unmask = {"a"} ≠ masked ∩ store = ∅`. -/
theorem superset_whitelist_unmask_cex :
    (∅ : Finset StorePathId) ⊆ {"a"} ∧
    unmask (∅ : Finset StorePathId) {"a"} {"a"} ≠ ({"a"} : Finset StorePathId) ∩ ∅ := by
  constructor
  · exact Finset.empty_subset _
  · intro h
    have : ("a" : StorePathId) ∈ (({"a"} : Finset StorePathId) ∩ ∅) := by
      rw [← h]; simp [unmask]
    simp at this

/-- C5 amended: if `whitelist ⊇ store` then `newly_mask = ∅` and
`unmask = masked ∩ whitelist`, which contains `masked ∩ store`; the claimed
equality `unmask = masked ∩ store` fails when some masked, whitelisted
identifier is absent from the store. -/
theorem superset_whitelist_amended (store whitelist masked : Finset StorePathId)
    (h : store ⊆ whitelist) :
    newly_mask store whitelist masked = ∅ ∧
    masked ∩ store ⊆ unmask store whitelist masked := by
  constructor
  · ext x
    simp only [newly_mask, Finset.mem_sdiff, Finset.not_mem_empty, iff_false]
    intro hx
    exact hx.2 (h hx.1.1)
  · intro x hx
    rw [Finset.mem_inter] at hx
    simp only [unmask, Finset.mem_inter]
    exact ⟨hx.1, h hx.2⟩

/-- C5 amended witness: instantiated at `store = {"a"}`,
`whitelist = {"a", "b"}`, `masked = {"a", "b"}`. -/
theorem superset_whitelist_amended_witness :
    newly_mask {"a"} {"a", "b"} {"a", "b"} = ∅ ∧
    ({"a", "b"} : Finset StorePathId) ∩ {"a"} ⊆ unmask {"a"} {"a", "b"} {"a", "b"} :=
  superset_whitelist_amended {"a"} {"a", "b"} {"a", "b"} (by decide)

/-- C6: Empty-whitelist edge case: for all `store` and `masked`, with
`whitelist = ∅` the reconciler yields `newly_mask = store \ masked` and the
resulting mask directory `masked'` equals `store`. -/
theorem empty_whitelist_masks_all (store masked : Finset StorePathId) :
    newly_mask store ∅ masked = store \ masked ∧
    masked' store ∅ masked = store := by
  constructor
  · ext x
    simp only [newly_mask, Finset.mem_sdiff, Finset.not_mem_empty]
    tauto
  · rw [reconcile_converges]
    exact Finset.sdiff_empty

/-!
Trace model of `main` (main.rs lines 32-97).  One run produces a sequence of
observable actions in the source's sequential order: the optional unmount
(lines 43-45), the completion of the three collections at the join points
(lines 55-58), the two removal loops (lines 60-73), the creation loop
(lines 75-88), and the final mount (line 94).
-/

/-- One observable action of a run of `main`. -/
inductive Event
  /-- `needed_paths.join()` completes (main.rs line 57). -/
  | collectWhitelist
  /-- `current_removed.join()` completes (main.rs line 58). -/
  | collectMasked
  /-- `get_paths("/nix/store")` returns (main.rs line 55). -/
  | collectStore
  /-- `fs::remove_file(upper_path.join(file))` (main.rs lines 63, 71). -/
  | removeMarker (f : StorePathId)
  /-- `libc::mknod(...)` creating a marker (main.rs line 83). -/
  | createMarker (f : StorePathId)
  /-- `umount(&merged_path)` (main.rs line 44). -/
  | umountView
  /-- `mount(&root)` (main.rs line 94). -/
  | mountView
deriving DecidableEq

/-- The action trace of one successful run of `main`, in source order.
`mounted` is the value of `is_mounted(&merged_path)` at line 43; the three
sets are the collected inputs.  Iteration order inside each loop is the
arbitrary hash-set order, modelled here by one concrete enumeration
(`Finset.sort`); the properties proved below do not depend on it. -/
def mainEvents (mounted : Bool) (store whitelist masked : Finset StorePathId) :
    List Event :=
  (if mounted then [Event.umountView] else []) ++
  [Event.collectStore, Event.collectWhitelist, Event.collectMasked] ++
  (((unmask store whitelist masked).sort (· ≤ ·)).map Event.removeMarker) ++
  (((stale store whitelist masked).sort (· ≤ ·)).map Event.removeMarker) ++
  (((newly_mask store whitelist masked).sort (· ≤ ·)).map Event.createMarker) ++
  [Event.mountView]

/-- Is this event the completed collection of one of the three input sets? -/
def isCollect : Event → Bool
  | Event.collectWhitelist => true
  | Event.collectMasked => true
  | Event.collectStore => true
  | _ => false

/-- Is this event a marker-file removal? -/
def isRemove : Event → Bool
  | Event.removeMarker _ => true
  | _ => false

/-- Is this event a marker-file creation? -/
def isCreate : Event → Bool
  | Event.createMarker _ => true
  | _ => false

/-- Is this event a mask-directory mutation (removal or creation)? -/
def isMutate (e : Event) : Bool := isRemove e || isCreate e

/-- Is this event the unmount of the merged view? -/
def isUmount : Event → Bool
  | Event.umountView => true
  | _ => false

/-- Is this event the mount of the merged view? -/
def isMount : Event → Bool
  | Event.mountView => true
  | _ => false

/-- Every event of the trace satisfying `p` occurs strictly before every
event satisfying `q`. -/
def phaseOrdered (p q : Event → Bool) (tr : List Event) : Prop :=
  ∀ i j, ∀ hi : i < tr.length, ∀ hj : j < tr.length,
    p (tr.get ⟨i, hi⟩) = true → q (tr.get ⟨j, hj⟩) = true → i < j

theorem phaseOrdered_append {p q : Event → Bool} {xs ys : List Event}
    (hys : ∀ e ∈ ys, p e = false) (hxs : ∀ e ∈ xs, q e = false) :
    phaseOrdered p q (xs ++ ys) := by
  intro i j hi hj hp hq
  rw [List.get_eq_getElem] at hp hq
  have hi' : i < xs.length := by
    by_contra hge
    push_neg at hge
    have hlt : i - xs.length < ys.length := by
      rw [List.length_append] at hi
      omega
    rw [List.getElem_append_right hge] at hp
    have hm : ys.get ⟨i - xs.length, hlt⟩ ∈ ys := ys.get_mem _ _
    rw [List.get_eq_getElem] at hm
    rw [hys _ hm] at hp
    exact Bool.false_ne_true hp
  have hj' : xs.length ≤ j := by
    by_contra hlt
    push_neg at hlt
    rw [List.getElem_append_left hlt] at hq
    have hm : xs.get ⟨j, hlt⟩ ∈ xs := xs.get_mem _ _
    rw [List.get_eq_getElem] at hm
    rw [hxs _ hm] at hq
    exact Bool.false_ne_true hq
  omega

theorem count_umount_map_remove (l : List StorePathId) :
    (l.map Event.removeMarker).count Event.umountView = 0 := by
  rw [List.count_eq_zero]
  intro h
  rcases List.mem_map.1 h with ⟨f, _, hf⟩
  exact Event.noConfusion hf

theorem count_umount_map_create (l : List StorePathId) :
    (l.map Event.createMarker).count Event.umountView = 0 := by
  rw [List.count_eq_zero]
  intro h
  rcases List.mem_map.1 h with ⟨f, _, hf⟩
  exact Event.noConfusion hf

/-- C7: in every run, reconciliation and application begin only after all
three input sets are collected (the join points precede every mask-directory
mutation), and within application every marker removal (the `unmask` and
`stale` loops, main.rs lines 60-73) precedes every marker creation (the
`newly_mask` loop, lines 75-88). -/
theorem application_ordering (mounted : Bool)
    (store whitelist masked : Finset StorePathId) :
    phaseOrdered isCollect isMutate (mainEvents mounted store whitelist masked) ∧
    phaseOrdered isRemove isCreate (mainEvents mounted store whitelist masked) := by
  constructor
  · have h : mainEvents mounted store whitelist masked =
        ((if mounted then [Event.umountView] else []) ++
          [Event.collectStore, Event.collectWhitelist, Event.collectMasked]) ++
        ((((unmask store whitelist masked).sort (· ≤ ·)).map Event.removeMarker) ++
          ((((stale store whitelist masked).sort (· ≤ ·)).map Event.removeMarker) ++
            ((((newly_mask store whitelist masked).sort (· ≤ ·)).map Event.createMarker) ++
              [Event.mountView]))) := by
      simp [mainEvents, List.append_assoc]
    rw [h]
    apply phaseOrdered_append
    · intro e he
      simp only [List.mem_append, List.mem_map, List.mem_singleton] at he
      rcases he with ⟨f, _, rfl⟩ | ⟨f, _, rfl⟩ | ⟨f, _, rfl⟩ | rfl <;> rfl
    · intro e he
      rcases List.mem_append.1 he with h1 | h1
      · cases mounted
        · simp at h1
        · simp at h1
          subst h1
          rfl
      · simp only [List.mem_cons, List.not_mem_nil, or_false] at h1
        rcases h1 with rfl | rfl | rfl <;> rfl
  · have h : mainEvents mounted store whitelist masked =
        ((if mounted then [Event.umountView] else []) ++
          [Event.collectStore, Event.collectWhitelist, Event.collectMasked] ++
          (((unmask store whitelist masked).sort (· ≤ ·)).map Event.removeMarker) ++
          (((stale store whitelist masked).sort (· ≤ ·)).map Event.removeMarker)) ++
        ((((newly_mask store whitelist masked).sort (· ≤ ·)).map Event.createMarker) ++
          [Event.mountView]) := by
      simp [mainEvents, List.append_assoc]
    rw [h]
    apply phaseOrdered_append
    · intro e he
      rcases List.mem_append.1 he with h1 | h1
      · rcases List.mem_map.1 h1 with ⟨f, _, rfl⟩
        rfl
      · simp only [List.mem_singleton] at h1
        rw [h1]; rfl
    · intro e he
      simp only [List.mem_append, List.mem_map] at he
      rcases he with ((h1 | h1) | ⟨f, _, rfl⟩) | ⟨f, _, rfl⟩
      · cases mounted
        · simp at h1
        · simp at h1
          subst h1
          rfl
      · simp only [List.mem_cons, List.not_mem_nil, or_false] at h1
        rcases h1 with rfl | rfl | rfl <;> rfl
      · rfl
      · rfl

/-- C8: in every run where a prior mount was detected (`mounted = true`,
the result of `is_mounted` at main.rs line 43), the merged view is
unmounted exactly once and before the new mount; when no prior mount was
detected, no unmount occurs. -/
theorem mount_phase_ordering (mounted : Bool)
    (store whitelist masked : Finset StorePathId) :
    (mainEvents mounted store whitelist masked).count Event.umountView =
      (if mounted then 1 else 0) ∧
    phaseOrdered isUmount isMount (mainEvents mounted store whitelist masked) := by
  constructor
  · cases mounted <;>
      simp [mainEvents, List.count_append, count_umount_map_remove,
        count_umount_map_create, List.count_cons, List.count_singleton,
        List.count_nil]
  · apply phaseOrdered_append
    · intro e he
      simp only [List.mem_singleton] at he
      rw [he]; rfl
    · intro e he
      simp only [List.mem_append, List.mem_map] at he
      rcases he with (((h1 | h1) | ⟨f, _, rfl⟩) | ⟨f, _, rfl⟩) | ⟨f, _, rfl⟩
      · cases mounted
        · simp at h1
        · simp at h1
          subst h1
          rfl
      · simp only [List.mem_cons, List.not_mem_nil, or_false] at h1
        rcases h1 with rfl | rfl | rfl <;> rfl
      · rfl
      · rfl
      · rfl

/-!
Model of `get_needed_paths` (main.rs lines 138-149), distinguishing normal
return, error return (`bail!` / `?`) and Rust panic, because line 148 slices
each output line with `l[len..]`, which panics when the line is shorter than
the `"/nix/store/"` prefix.  Text is modelled as lists of characters (the
prefix is ASCII, so char and byte indices agree on it).
-/

/-- Result of one call: normal return, error return, or Rust panic. -/
inductive RunOutcome (α : Type)
  | ok (a : α)
  | err
  | panic
deriving DecidableEq

/-- What `get_needed_paths` observes of the external `nix-store -qR` command:
its exit status and, when stdout is valid UTF-8, the decoded text split into
lines (`none` models invalid UTF-8, which `str::from_utf8` rejects). -/
structure ResolverOutput where
  success : Bool
  stdoutLines : Option (List (List Char))

/-- Byte length of the fixed prefix `"/nix/store/"` (main.rs line 147);
`str::len` counts UTF-8 bytes and the prefix is ASCII. -/
def storePrefixLen : Nat := 11

/-- The Rust slice `l[len..]` of main.rs line 148, on the UTF-8 byte index
`len`: the character suffix when `len` lands exactly on a character
boundary within the line, a panic (modelled as `none`) when `len` exceeds
the line's byte length or falls inside a multi-byte character.  The model
consumes characters while counting down their UTF-8 byte sizes. -/
def sliceFrom : List Char → Nat → Option (List Char)
  | l, 0 => some l
  | [], _ + 1 => none
  | c :: rest, len + 1 =>
    if c.utf8Size ≤ len + 1 then sliceFrom rest (len + 1 - c.utf8Size) else none

/-- The mapping pass of main.rs line 148,
`output.lines().map(|l| l[len..].to_string())`, propagating a panic. -/
def stripLines : List (List Char) → Option (List (List Char))
  | [] => some []
  | l :: rest =>
    match sliceFrom l storePrefixLen, stripLines rest with
    | some s, some ss => some (s :: ss)
    | _, _ => none

/-- Embeds `get_needed_paths` (main.rs lines 138-149): fail on non-zero exit
status (line 144), fail on invalid UTF-8 (line 146), otherwise strip the
store prefix from every line and collect the suffixes into a set. -/
def get_needed_paths (out : ResolverOutput) : RunOutcome (Finset (List Char)) :=
  if !out.success then RunOutcome.err
  else
    match out.stdoutLines with
    | none => RunOutcome.err
    | some ls =>
      match stripLines ls with
      | some stripped => RunOutcome.ok stripped.toFinset
      | none => RunOutcome.panic

theorem sliceFrom_ascii (n : Nat) :
    ∀ l : List Char, (∀ c ∈ l.take n, c.utf8Size = 1) → n ≤ l.length →
    sliceFrom l n = some (l.drop n) := by
  induction n with
  | zero =>
    intro l _ _
    cases l <;> simp [sliceFrom]
  | succ n ih =>
    intro l hasc hlen
    match l with
    | [] => exact absurd hlen (by simp)
    | c :: rest =>
      have hc : c.utf8Size = 1 := by
        apply hasc c
        rw [List.take_succ_cons]
        exact List.mem_cons_self _ _
      have hrest : sliceFrom rest n = some (rest.drop n) := by
        apply ih rest
        · intro d hd
          apply hasc d
          rw [List.take_succ_cons]
          exact List.mem_cons_of_mem _ hd
        · simpa using hlen
      simp only [sliceFrom, hc, if_pos (by omega : 1 ≤ n + 1)]
      simpa using hrest

/-- A sliceFrom fact witnessing multi-byte panic behaviour: eleven
two-byte characters have byte length 22 with no character boundary at byte
index 11, so the slice panics even though the line is longer than the
prefix in bytes and as long as it in characters. -/
theorem sliceFrom_multibyte_panics :
    sliceFrom (List.replicate 11 'é') storePrefixLen = none := by
  rfl

theorem stripLines_of_ascii (ls : List (List Char))
    (hasc : ∀ l ∈ ls, ∀ c ∈ l.take storePrefixLen, c.utf8Size = 1)
    (hlen : ∀ l ∈ ls, storePrefixLen ≤ l.length) :
    stripLines ls = some (ls.map (fun l => l.drop storePrefixLen)) := by
  induction ls with
  | nil => rfl
  | cons l rest ih =>
    have hl : sliceFrom l storePrefixLen = some (l.drop storePrefixLen) :=
      sliceFrom_ascii storePrefixLen l (hasc l (List.mem_cons_self _ _))
        (hlen l (List.mem_cons_self _ _))
    have hrest : stripLines rest = some (rest.map (fun l => l.drop storePrefixLen)) :=
      ih (fun y hy => hasc y (List.mem_cons_of_mem _ hy))
        (fun y hy => hlen y (List.mem_cons_of_mem _ hy))
    simp only [stripLines, hl, hrest, List.map_cons]

/-- C9 counterexample: a successful, UTF-8-decodable resolver output whose
single line `"x"` is shorter than the `"/nix/store/"` prefix makes
`get_needed_paths` panic (out-of-bounds string slice at main.rs line 148)
instead of returning a resolution error. -/
theorem get_needed_paths_panics_cex :
    get_needed_paths ⟨true, some [['x']]⟩ =
      (RunOutcome.panic : RunOutcome (Finset (List Char))) := by
  rfl

/-- C9 amended: `get_needed_paths` returns the set of prefix-stripped lines
when the resolver succeeds, its output decodes as UTF-8 and every line is at
least eleven characters long with an all-ASCII first eleven characters (so
byte index 11, the length of `"/nix/store/"`, is a character boundary at or
before the line's end — true of every real `/nix/store/`-prefixed line); it
returns an error when the resolver reports failure or the output is not
valid UTF-8; but on a line where byte index 11 is out of bounds or not a
character boundary it panics rather than failing with a resolution error. -/
theorem get_needed_paths_total_on_wellformed (out : ResolverOutput) :
    (out.success = false → get_needed_paths out = RunOutcome.err) ∧
    (out.success = true → out.stdoutLines = none →
      get_needed_paths out = RunOutcome.err) ∧
    (∀ ls, out.success = true → out.stdoutLines = some ls →
      (∀ l ∈ ls, ∀ c ∈ l.take storePrefixLen, c.utf8Size = 1) →
      (∀ l ∈ ls, storePrefixLen ≤ l.length) →
      get_needed_paths out =
        RunOutcome.ok (ls.map (fun l => l.drop storePrefixLen)).toFinset) := by
  refine ⟨?_, ?_, ?_⟩
  · intro hfail
    simp [get_needed_paths, hfail]
  · intro hok hnone
    simp [get_needed_paths, hok, hnone]
  · intro ls hok hsome hasc hlong
    simp [get_needed_paths, hok, hsome, stripLines_of_ascii ls hasc hlong]

/-- C9 amended witness: instantiated at a successful output with the single
line `"/nix/store/abc"`, stripped to the identifier `"abc"`. -/
theorem get_needed_paths_total_on_wellformed_witness :
    get_needed_paths ⟨true, some [("/nix/store/abc".toList)]⟩ =
      RunOutcome.ok ([("/nix/store/abc".toList)].map
        (fun l => l.drop storePrefixLen)).toFinset :=
  (get_needed_paths_total_on_wellformed _).2.2 _ rfl rfl (by decide) (by decide)

/-!
Stateful model of the applier part of `main` (lines 60-88).  The state is
the set of marker files currently present in the upper directory.
`fs::remove_file` fails when the file is absent; `libc::mknod` fails with
`EEXIST` when the file already exists; either failure aborts the run
(`none`).
-/

/-- Run one removal loop (main.rs lines 62-65 or 69-73): delete each listed
marker in order, failing as soon as one is not present. -/
def removeFiles : List StorePathId → Finset StorePathId → Option (Finset StorePathId)
  | [], fs => some fs
  | f :: rest, fs => if f ∈ fs then removeFiles rest (fs.erase f) else none

/-- Run the creation loop (main.rs lines 80-88): `mknod` each listed marker
in order, failing when it already exists. -/
def createFiles : List StorePathId → Finset StorePathId → Option (Finset StorePathId)
  | [], fs => some fs
  | f :: rest, fs => if f ∉ fs then createFiles rest (insert f fs) else none

/-- The applier of `main` (lines 60-88): the `unmask` removal loop, then the
`stale` removal loop, then the `newly_mask` creation loop, threading the
marker-file state; `none` is a fatal error that aborts the run, so a `none`
before `createFiles` means no marker creation was attempted. -/
def applyRun (lu ls ln : List StorePathId) (fs : Finset StorePathId) :
    Option (Finset StorePathId) :=
  match removeFiles lu fs with
  | none => none
  | some fs1 =>
    match removeFiles ls fs1 with
    | none => none
    | some fs2 => createFiles ln fs2

theorem removeFiles_all_present (l : List StorePathId) :
    ∀ fs : Finset StorePathId, l.Nodup → (∀ y ∈ l, y ∈ fs) →
    removeFiles l fs = some (fs \ l.toFinset) := by
  induction l with
  | nil =>
    intro fs _ _
    simp [removeFiles]
  | cons f rest ih =>
    intro fs hnd hsub
    rw [List.nodup_cons] at hnd
    have hf : f ∈ fs := hsub f (List.mem_cons_self _ _)
    have hsub' : ∀ y ∈ rest, y ∈ fs.erase f := by
      intro y hy
      rw [Finset.mem_erase]
      exact ⟨fun heq => hnd.1 (heq ▸ hy), hsub y (List.mem_cons_of_mem _ hy)⟩
    simp only [removeFiles, if_pos hf, ih (fs.erase f) hnd.2 hsub']
    congr 1
    ext x
    simp only [Finset.mem_sdiff, Finset.mem_erase, List.toFinset_cons,
      Finset.mem_insert, List.mem_toFinset]
    tauto

theorem removeFiles_missing (l : List StorePathId) :
    ∀ fs : Finset StorePathId, ∀ y ∈ l, y ∉ fs → removeFiles l fs = none := by
  induction l with
  | nil =>
    intro fs y hy
    exact absurd hy (List.not_mem_nil y)
  | cons f rest ih =>
    intro fs y hy hnot
    rcases List.mem_cons.1 hy with rfl | hy'
    · simp only [removeFiles, if_neg hnot]
    · by_cases hf : f ∈ fs
      · simp only [removeFiles, if_pos hf]
        exact ih _ y hy' (fun hmem => hnot (Finset.mem_of_mem_erase hmem))
      · simp only [removeFiles, if_neg hf]

/-- C10: when some identifier `x` is in `masked ∩ whitelist` but not in
`store`, it is enumerated by both the `unmask` loop and the `stale` loop of
`main`: the first `remove_file` deletes its marker, the second fails because
the marker is already gone, and the run aborts with an Io error during the
stale loop — before any `mknod` marker creation is attempted. -/
theorem double_remove_aborts
    (store whitelist masked : Finset StorePathId) (x : StorePathId)
    (hxm : x ∈ masked) (hxw : x ∈ whitelist) (hxs : x ∉ store)
    (lu ls ln : List StorePathId)
    (hu : lu.toFinset = unmask store whitelist masked) (hund : lu.Nodup)
    (hs : ls.toFinset = stale store whitelist masked) :
    removeFiles lu masked = some (masked \ unmask store whitelist masked) ∧
    removeFiles ls (masked \ unmask store whitelist masked) = none ∧
    applyRun lu ls ln masked = none := by
  have h1 : removeFiles lu masked = some (masked \ unmask store whitelist masked) := by
    rw [← hu]
    apply removeFiles_all_present lu masked hund
    intro y hy
    have : y ∈ unmask store whitelist masked := by
      rw [← hu]
      exact List.mem_toFinset.2 hy
    exact (Finset.mem_inter.1 this).1
  have hxls : x ∈ ls := by
    rw [← List.mem_toFinset, hs]
    simp only [stale, Finset.mem_sdiff]
    exact ⟨hxm, hxs⟩
  have hxgone : x ∉ masked \ unmask store whitelist masked := by
    intro hmem
    rw [Finset.mem_sdiff] at hmem
    exact hmem.2 (Finset.mem_inter.2 ⟨hxm, hxw⟩)
  have h2 : removeFiles ls (masked \ unmask store whitelist masked) = none :=
    removeFiles_missing ls _ x hxls hxgone
  refine ⟨h1, h2, ?_⟩
  simp only [applyRun, h1, h2]

/-- C10 witness: instantiated at `store = ∅`, `whitelist = {"a"}`,
`masked = {"a"}` with both removal loops enumerating `["a"]`. -/
theorem double_remove_aborts_witness :
    removeFiles ["a"] {"a"} = some (({"a"} : Finset StorePathId) \ unmask ∅ {"a"} {"a"}) ∧
    removeFiles ["a"] (({"a"} : Finset StorePathId) \ unmask ∅ {"a"} {"a"}) = none ∧
    applyRun ["a"] ["a"] [] {"a"} = none :=
  double_remove_aborts ∅ {"a"} {"a"} "a" (by decide) (by decide) (by decide)
    ["a"] ["a"] [] (by decide) (by decide) (by decide)
